import Mathlib

/-!
Shallow embedding of the HGCal ntuple adaptor layer
(HGCalAnalysis/python/NtupleDataFormat.py).

The ROOT TTree backend is modelled as `TreeData` (the immutable file
content: entry count, per-entry branch values, and which entries the
backend can LoadTree / GetEntry) together with `TreeState`, which adds
the single mutable piece of state: the index of the entry currently
resident in the shared tree buffer.  Branch values are per-entry lists
of integers; scalar event-level branches (run / lumi / event) are a
separate map.  Stateful tree calls (`LoadTree`, `GetEntry`) are explicit
state-passing functions.  Python exceptions become an `Err` sum type
carried in `Except`.
-/

/-- Error values corresponding to the exceptions the Python code can
raise on the modelled paths: the explicit `Exception("%s is not valid")`
raised by `_Object._checkIsValid` (carrying an identifying string), the
`AttributeError` raised by `getattr` on a missing branch, and the
`IndexError` raised by sequence indexing. -/
inductive Err where
  | invalidRecord (cls : String) : Err
  | missingField (name : String) : Err
  | indexError : Err
  deriving DecidableEq

/-- Immutable content and backend behaviour of the opened ROOT file:
`nentries` is what `GetEntriesFast` reports, `loadable j` says whether
`LoadTree j` succeeds (returns a non-negative entry number), `readable j`
says whether `GetEntry j` succeeds (returns a positive byte count),
`branch i name` gives the vector branch `name` as stored at entry `i`,
and `scalar i name` gives the scalar branch `name` at entry `i`. -/
structure TreeData where
  nentries : Nat
  loadable : Nat → Bool
  readable : Nat → Bool
  branch : Nat → String → Option (List Int)
  scalar : Nat → String → Int

/-- The tree together with its single mutable buffer: `current` is the
entry whose data is resident after the last successful `GetEntry`. -/
structure TreeState where
  data : TreeData
  current : Nat

/-- Reading a vector branch through `getattr(tree, name)`: the value
seen is always the one belonging to the currently loaded entry. -/
def readBranch (s : TreeState) (name : String) : Option (List Int) :=
  s.data.branch s.current name

/-- Reading a scalar branch such as `tree.run`: again always the value
of the currently loaded entry. -/
def readScalar (s : TreeState) (name : String) : Int :=
  s.data.scalar s.current name

/-- Model of `TTree.LoadTree j`: returns the (non-negative) entry number
on success and a negative value on failure. -/
def loadTree (s : TreeState) (j : Nat) : Int :=
  if s.data.loadable j then (j : Int) else -1

/-- Model of `TTree.GetEntry j`: on success the entry is copied into the
shared buffer (`current := j`) and a positive byte count is returned; on
a short read the buffer is left as it was and `0` is returned. -/
def getEntry (s : TreeState) (j : Nat) : TreeState × Int :=
  if s.data.readable j then ({ s with current := j }, 1) else (s, 0)

/-- Model of `_Object` (and of its concrete subclasses `RecHit`,
`SimCluster`, `LayerCluster`, `Trackster`, which add nothing): an index
into the per-entry vectors plus the common branch name stem. -/
structure Object where
  index : Int
  pfx : String
  deriving DecidableEq

/-- Model of `_Collection` (and of its concrete subclasses `RecHits`
etc.): the branch used by `size()` and the common branch name stem
handed to each constructed `_Object`.  The `objclass` constructor
argument is not modelled because every concrete object class is a plain
`_Object`. -/
structure Collection where
  sizeBranch : String
  pfx : String
  deriving DecidableEq

/-- Model of `Event`: the tree is implicit in the state, so only the
entry number the view was constructed for remains. -/
structure Event where
  entry : Nat
  deriving DecidableEq

/-- Python sequence indexing `l[i]` for an integer `i`: non-negative
indices count from the front, negative indices count from the back
(`l[-1]` is the last element), and anything outside the sequence raises
`IndexError` (here: `none`). -/
def pyGet (l : List Int) (i : Int) : Option Int :=
  if 0 ≤ i then List.get? l i.toNat
  else if i.natAbs ≤ l.length then List.get? l (l.length - i.natAbs)
  else none

/-- Model of `_Object.isValid`: the index is valid iff it differs from
the sentinel `-1`. -/
def Object.isValid (o : Object) : Bool :=
  o.index != -1

/-- Model of the body of `_Object.__getattr__` up to and including the
read `getattr(self._tree, self._prefix + "_" + attr)[self._index]`:
first `_checkIsValid` (raises if `index == -1`), then the branch lookup
(raises `AttributeError` if the branch does not exist), then Python
indexing into the branch vector. -/
def Object.getAttrVal (s : TreeState) (o : Object) (attr : String) : Except Err Int :=
  if o.index = -1 then Except.error (Err.invalidRecord o.pfx)
  else
    match readBranch s (o.pfx ++ "_" ++ attr) with
    | none => Except.error (Err.missingField (o.pfx ++ "_" ++ attr))
    | some l =>
      match pyGet l o.index with
      | none => Except.error Err.indexError
      | some v => Except.ok v

/-- Model of `_Object.__getattr__` as a whole: the value is computed
eagerly and wrapped in the zero-argument closure `lambda: val` that the
Python code returns to the caller. -/
def Object.getAttr (s : TreeState) (o : Object) (attr : String) : Except Err (Unit → Int) :=
  Except.map (fun v _ => v) (Object.getAttrVal s o attr)

/-- Invoking a closure obtained from `Object.getAttr` at some later
moment, when the tree may hold a different current entry `sLater`; the
closure takes no arguments, so the later state cannot influence it. -/
def invokeLater (f : Unit → Int) (sLater : TreeState) : Int :=
  f ()

/-- Model of `_Collection.size`:
`int(getattr(self._tree, self._sizeBranch).size())`, i.e. the length of
the size branch's vector at the current entry; `AttributeError` if the
branch is absent. -/
def Collection.size (s : TreeState) (c : Collection) : Except Err Nat :=
  match readBranch s c.sizeBranch with
  | none => Except.error (Err.missingField c.sizeBranch)
  | some l => Except.ok l.length

/-- Model of `_Collection.__getitem__`: constructs
`self._objclass(self._tree, index, self._prefix)` unconditionally; no
range check of any kind is performed. -/
def Collection.getItem (c : Collection) (k : Int) : Object :=
  { index := k, pfx := c.pfx }

/-- Model of `_Collection.__iter__`: `for index in range(self.size())`
yields one object per index; the whole (finite) yielded sequence is
returned as a list, and a failure of `size()` propagates. -/
def Collection.iter (s : TreeState) (c : Collection) : Except Err (List Object) :=
  Except.map
    (fun n => List.map (fun i : Nat => { index := (i : Int), pfx := c.pfx }) (List.range n))
    (Collection.size s c)

/-- Model of the `RecHits` constructor: size branch is the pt vector of
the group, `super().__init__(tree, prefix + "_pt", RecHit, prefix)`. -/
def RecHits.init (p : String) : Collection :=
  { sizeBranch := p ++ "_pt", pfx := p }

/-- Model of `Event.run`: reads the scalar branch of the tree; note that
the read goes through the current state only — the `Event`'s own bound
entry number plays no part. -/
def Event.run (s : TreeState) (e : Event) : Int :=
  readScalar s ("run")

/-- Model of `Event.lumi`. -/
def Event.lumi (s : TreeState) (e : Event) : Int :=
  readScalar s ("lumi")

/-- Model of `Event.event`, named `eventNum` here to avoid clashing with
the structure name. -/
def Event.eventNum (s : TreeState) (e : Event) : Int :=
  readScalar s ("event")

/-- Model of `HGCalNtuple`: the mutable tree state together with the
entry count `self._entries` captured by `GetEntriesFast()` at
construction time. -/
structure HGCalNtuple where
  state : TreeState
  entries : Nat

/-- Model of `HGCalNtuple.__init__`: opens the file, obtains the tree
(initially positioned at entry 0) and captures `GetEntriesFast()`. -/
def HGCalNtuple.init (d : TreeData) : HGCalNtuple :=
  { state := { data := d, current := 0 }, entries := d.nentries }

/-- Model of `HGCalNtuple.nevents`: returns the captured count. -/
def HGCalNtuple.nevents (n : HGCalNtuple) : Nat :=
  n.entries

/-- Model of `HGCalNtuple.getEvent`: `LoadTree(index)`, early `return
None` when that is negative, then `GetEntry(ientry)`; the `nb <= 0`
branch of the source contains only the bare expression `None`, which is
a no-op, so the function falls through and returns `Event(tree, ientry)`
regardless of the `GetEntry` outcome. -/
def HGCalNtuple.getEvent (n : HGCalNtuple) (i : Nat) : HGCalNtuple × Option Event :=
  if 0 ≤ loadTree n.state i then
    ({ state := (getEntry n.state i).fst, entries := n.entries }, some { entry := i })
  else (n, none)

/-- One step-by-step unrolling of the loop body of
`HGCalNtuple.__iter__` starting at entry `j` with `rem` loop iterations
remaining: `LoadTree`, `break` when it is negative, `GetEntry`,
`continue` when it reports no bytes, otherwise yield `Event(tree, j)`. -/
def iterGoState : TreeState → Nat → Nat → TreeState × List Event
  | s, _, 0 => (s, [])
  | s, j, rem + 1 =>
    if 0 ≤ loadTree s j then
      if (getEntry s j).snd ≤ 0 then iterGoState (getEntry s j).fst (j + 1) rem
      else
        ((iterGoState (getEntry s j).fst (j + 1) rem).fst,
          { entry := j } :: (iterGoState (getEntry s j).fst (j + 1) rem).snd)
    else (s, [])

/-- Model of `HGCalNtuple.__iter__` run to exhaustion: the loop ranges
over `range(self._entries)` and the full list of yielded `Event` views
is collected. -/
def HGCalNtuple.iter (n : HGCalNtuple) : HGCalNtuple × List Event :=
  ((⟨(iterGoState n.state 0 n.entries).fst, n.entries⟩ : HGCalNtuple),
    (iterGoState n.state 0 n.entries).snd)

/-- Entry numbers of the events yielded by a full sequential iteration
over a freshly opened ntuple. -/
def ntupleIterIndices (d : TreeData) : List Nat :=
  List.map Event.entry ((HGCalNtuple.iter (HGCalNtuple.init d)).snd)

/-- Spec-side definition, following the specification's words for the
collection length: the size field "stores the element count directly"
as its value, so the declared length is the stored value itself (of a
scalar field, i.e. the single stored number) rather than the length of
one of the group's per-entry sequences. -/
def specDeclaredSize (s : TreeState) (c : Collection) : Except Err Int :=
  match readBranch s c.sizeBranch with
  | none => Except.error (Err.missingField c.sizeBranch)
  | some l => Except.ok (l.headD 0)

/-- Concrete 5-entry store: every entry loads, but entry 3 suffers a
short read (`GetEntry` reports 0 bytes). -/
def dSkip : TreeData :=
  { nentries := 5
    loadable := fun _ => true
    readable := fun j => j != 3
    branch := fun _ _ => none
    scalar := fun _ _ => 0 }

/-- Freshly opened ntuple over `dSkip`. -/
def nSkip : HGCalNtuple :=
  HGCalNtuple.init dSkip

/-- Concrete healthy 3-entry store carrying a two-element rechit group
(pt vector `[3, 4]`, energy vector `[15, 25]`) and a per-entry run
number `10, 20, 30`. -/
def dHits : TreeData :=
  { nentries := 3
    loadable := fun _ => true
    readable := fun _ => true
    branch := fun _ name =>
      if name = "rechit_pt" then some [3, 4]
      else if name = "rechit_energy" then some [15, 25]
      else none
    scalar := fun i name => if name = "run" then 10 + 10 * Int.ofNat i else 0 }

/-- `dHits` with entry 0 loaded. -/
def sHits : TreeState :=
  { data := dHits, current := 0 }

/-- Concrete 1-entry store whose rechit pt vector is the singleton
`[5]`: one hit, whose pt value happens to be 5. -/
def dOne : TreeData :=
  { nentries := 1
    loadable := fun _ => true
    readable := fun _ => true
    branch := fun _ name => if name = "rechit_pt" then some [5] else none
    scalar := fun _ _ => 0 }

/-- `dOne` with entry 0 loaded. -/
def sOne : TreeState :=
  { data := dOne, current := 0 }

/-- State of the tree after opening `dHits` and loading entry 1 through
`getEvent 1`. -/
def sAfterLoad1 : TreeState :=
  ((HGCalNtuple.init dHits).getEvent 1).fst.state

/-! ## Helper lemmas -/

/-- Python indexing at a negative position `-k` with `0 < k ≤ len`
selects the `k`-th element from the back. -/
theorem pyGet_neg (l : List Int) (k : Nat) (hk : 0 < k) (hlen : k ≤ l.length) :
    pyGet l (-(k : Int)) = List.get? l (l.length - k) := by
  have h1 : ¬ ((0 : Int) ≤ -(k : Int)) := by omega
  have h2 : (-(k : Int)).natAbs = k := by omega
  unfold pyGet
  rw [if_neg h1, h2, if_pos hlen]

/-- Entry numbers yielded by the iteration loop when every entry is
loadable: exactly the readable entries of the scanned range, in order
(the unreadable ones are skipped by the `continue`). -/
theorem iterGo_entries (d : TreeData) (hl : ∀ k, d.loadable k = true) :
    ∀ (rem j cur : Nat),
      List.map Event.entry (iterGoState { data := d, current := cur } j rem).snd
        = List.filter (fun k => d.readable k) (List.range' j rem) := by
  intro rem
  induction rem with
  | zero =>
    intro j cur
    rfl
  | succ rem ih =>
    intro j cur
    cases hr : d.readable j with
    | true =>
      simp [iterGoState, loadTree, hl j, getEntry, hr, ih (j + 1) j,
        List.range'_succ, List.filter_cons]
    | false =>
      simp [iterGoState, loadTree, hl j, getEntry, hr, ih (j + 1) cur,
        List.range'_succ, List.filter_cons]

/-! ## Claim C1 -/

/-- C1 (amended): over a store in which every entry is loadable,
sequential iteration (`HGCalNtuple.__iter__`) yields exactly the
readable entries of `0 .. nentries-1` in order: an entry whose
`GetEntry` reports a short read is skipped (the loop body hits
`continue`) and iteration proceeds with the following entries, so no
error reaches the caller; iteration does not end at the failed entry. -/
theorem c1_iter_skips_unreadable (d : TreeData) (hl : ∀ k, d.loadable k = true) :
    ntupleIterIndices d = List.filter (fun k => d.readable k) (List.range d.nentries) := by
  have h := iterGo_entries d hl d.nentries 0 0
  simpa [ntupleIterIndices, HGCalNtuple.iter, HGCalNtuple.init, List.range_eq_range'] using h

/-- C1 witness: the skip law evaluated on the concrete 5-entry store
whose entry 3 suffers a short read. -/
theorem c1_witness :
    ntupleIterIndices dSkip = List.filter (fun k => dSkip.readable k) (List.range dSkip.nentries) :=
  c1_iter_skips_unreadable dSkip (fun k => rfl)

/-- C1 counterexample: over the 5-entry store whose entry 3 is
unreadable, iteration yields entries 0, 1, 2, 4 — not just 0, 1, 2 as
the claim states — so the short read is not treated as
end-of-sequence. -/
theorem c1_counterexample :
    ntupleIterIndices dSkip = [0, 1, 2, 4] ∧ ([0, 1, 2, 4] : List Nat) ≠ [0, 1, 2] := by
  exact ⟨by decide, by decide⟩

/-! ## Claim C2 -/

/-- C2 (amended): no read accessor consults the view's bound entry at
all — the result of every `Event` accessor is the same for two views
bound to different entries, and equals the scalar stored at the store's
currently loaded entry; consequently after a different entry is loaded a
stale view silently returns the newly loaded entry's data, and no
`StaleViewError` exists (the error type of the embedding has no such
constructor because the source raises no such exception). -/
theorem c2_reads_ignore_view_binding : ∀ (s : TreeState) (e1 e2 : Event),
    Event.run s e1 = Event.run s e2
    ∧ Event.lumi s e1 = Event.lumi s e2
    ∧ Event.eventNum s e1 = Event.eventNum s e2
    ∧ Event.run s e1 = s.data.scalar s.current ("run") := by
  intro s e1 e2
  exact ⟨rfl, rfl, rfl, rfl⟩

/-- C2 counterexample: after loading entry 1 of the concrete store, a
view bound to entry 0 reads run number 20 — the value belonging to
entry 1, not entry 0's value 10 — and no error of any kind is raised. -/
theorem c2_counterexample :
    sAfterLoad1.current = 1
    ∧ Event.run sAfterLoad1 { entry := 0 } = 20
    ∧ dHits.scalar 0 ("run") = 10 := by
  exact ⟨by decide, by decide, by decide⟩

/-! ## Claim C3 -/

/-- C3 (code bug evidence): on the 5-entry store whose entry 3 is
loadable but suffers a short read, `HGCalNtuple.getEvent 3` returns an
`Event` view for entry 3 instead of surfacing the failure: the
`nb <= 0` branch of the source consists of the bare expression `None`
(a no-op, not a `return`), so the function falls through. -/
theorem c3_getEvent_returns_view_on_short_read :
    dSkip.readable 3 = false
    ∧ (HGCalNtuple.getEvent nSkip 3).snd = some { entry := 3 } := by
  exact ⟨by decide, by decide⟩

/-! ## Claim C4 -/

/-- C4 (amended): indexed access `_Collection.__getitem__` performs no
range check whatsoever: for every integer `k` — inside or outside the
collection's size — it returns a record view whose index is `k` and
whose branch name stem is the collection's; it never fails. -/
theorem c4_getItem_no_bounds_check : ∀ (c : Collection) (k : Int),
    Collection.getItem c k = { index := k, pfx := c.pfx }
    ∧ (Collection.getItem c k).index = k
    ∧ (Collection.getItem c k).pfx = c.pfx := by
  intro c k
  exact ⟨rfl, rfl, rfl⟩

/-- C4 counterexample: the concrete rechit collection has size 2, yet
requesting item 5 — far outside the range — raises nothing and hands
back a record view with index 5 that even reports itself valid. -/
theorem c4_counterexample :
    Collection.size sHits (RecHits.init ("rechit")) = Except.ok 2
    ∧ ¬ ((5 : Int) < 2)
    ∧ Collection.getItem (RecHits.init ("rechit")) 5 = { index := 5, pfx := "rechit" }
    ∧ Object.isValid (Collection.getItem (RecHits.init ("rechit")) 5) = true := by
  refine ⟨by rfl, by decide, by rfl, by rfl⟩

/-! ## Claim C5 -/

/-- C5 (amended): the collection length returned by `_Collection.size`
is the length of the size branch's per-entry sequence (the source calls
`.size()` on the branch vector), not a count stored directly as the
field's value. -/
theorem c5_size_is_sequence_length : ∀ (s : TreeState) (c : Collection) (l : List Int),
    readBranch s c.sizeBranch = some l →
    Collection.size s c = Except.ok l.length := by
  intro s c l h
  simp [Collection.size, h]

/-- C5 witness: the sequence-length law evaluated on the concrete
1-entry store whose pt vector is the singleton `[5]`. -/
theorem c5_witness :
    Collection.size sOne (RecHits.init ("rechit")) = Except.ok (List.length ([5] : List Int)) :=
  c5_size_is_sequence_length sOne (RecHits.init ("rechit")) [5] rfl

/-- C5 counterexample: on a store whose rechit pt vector is `[5]` (one
hit of pt 5), the code reports length 1 — the vector's length — while
the size field's stored value is 5; the two disagree, refuting the
claim that the declared size field's value is the count. -/
theorem c5_counterexample :
    Collection.size sOne (RecHits.init ("rechit")) = Except.ok 1
    ∧ specDeclaredSize sOne (RecHits.init ("rechit")) = Except.ok 5
    ∧ ((1 : Int) ≠ (5 : Int)) := by
  refine ⟨by rfl, by rfl, by decide⟩

/-! ## Claim C6 -/

/-- C6: an attribute read on a record view whose index is the sentinel
`-1` fails with the invalid-record error (raised by `_checkIsValid`
before any branch lookup) and `isValid` reports false; a missing branch
on a valid record fails with the distinct missing-field error, and the
two error constructors are never equal, so a caller can tell "no such
record" apart from "no such field". -/
theorem c6_invalid_vs_missing : ∀ (s : TreeState) (o : Object) (attr : String),
    (o.index = -1 →
      Object.getAttrVal s o attr = Except.error (Err.invalidRecord o.pfx)
      ∧ Object.isValid o = false)
    ∧ (o.index ≠ -1 → readBranch s (o.pfx ++ "_" ++ attr) = none →
      Object.getAttrVal s o attr = Except.error (Err.missingField (o.pfx ++ "_" ++ attr)))
    ∧ (∀ p q, Err.invalidRecord p ≠ Err.missingField q) := by
  intro s o attr
  refine ⟨?_, ?_, ?_⟩
  · intro h
    constructor
    · simp [Object.getAttrVal, h]
    · simp [Object.isValid, h]
  · intro h hb
    simp [Object.getAttrVal, h, hb]
  · intro p q hpq
    exact Err.noConfusion hpq

/-- C6 witness: both failure kinds produced on the concrete store — the
sentinel record yields the invalid-record error and reports itself
invalid, while a valid record with an absent branch yields the
missing-field error. -/
theorem c6_witness :
    Object.getAttrVal sHits { index := -1, pfx := "rechit" } ("energy")
        = Except.error (Err.invalidRecord ("rechit"))
    ∧ Object.isValid { index := -1, pfx := "rechit" } = false
    ∧ Object.getAttrVal sHits { index := 0, pfx := "rechit" } ("nope")
        = Except.error (Err.missingField ("rechit_nope")) := by
  obtain ⟨h1, -, -⟩ := c6_invalid_vs_missing sHits { index := -1, pfx := "rechit" } ("energy")
  obtain ⟨-, h2, -⟩ := c6_invalid_vs_missing sHits { index := 0, pfx := "rechit" } ("nope")
  obtain ⟨ha, hb⟩ := h1 rfl
  exact ⟨ha, hb, h2 (by decide) rfl⟩

/-! ## Claim C7 -/

/-- C7: collection iteration yields record views whose indices are
exactly `0 .. length()-1` in ascending order (the mapped `List.range`),
each carrying the collection's branch name stem; the sequence is a
finite list, and since `Collection.iter` re-reads the size on each call
it is a pure function of the unchanged state, so two successive
iterations over the same entry yield the same sequence. -/
theorem c7_iter_yields_ascending_range : ∀ (s : TreeState) (c : Collection) (n : Nat),
    Collection.size s c = Except.ok n →
    ∃ l, Collection.iter s c = Except.ok l
      ∧ List.map Object.index l = List.map (fun i : Nat => (i : Int)) (List.range n)
      ∧ List.map Object.pfx l = List.replicate n c.pfx := by
  intro s c n h
  refine ⟨List.map (fun i : Nat => { index := (i : Int), pfx := c.pfx }) (List.range n), ?_, ?_, ?_⟩
  · unfold Collection.iter
    rw [h]
    rfl
  · rw [List.map_map]
    rfl
  · rw [List.map_map]
    show List.map (fun _ => c.pfx) (List.range n) = List.replicate n c.pfx
    rw [List.map_const', List.length_range]

/-- C7 witness: the iteration law evaluated on the concrete two-hit
rechit collection. -/
theorem c7_witness :
    ∃ l, Collection.iter sHits (RecHits.init ("rechit")) = Except.ok l
      ∧ List.map Object.index l = List.map (fun i : Nat => (i : Int)) (List.range 2)
      ∧ List.map Object.pfx l = List.replicate 2 (RecHits.init ("rechit")).pfx :=
  c7_iter_yields_ascending_range sHits (RecHits.init ("rechit")) 2 rfl

/-! ## Claim C8 -/

/-- C8: the entry count is captured at construction and never mutated:
a freshly opened ntuple reports the backend's count, and both
random-access loading and a full sequential iteration return an ntuple
with the same count; record/collection/event reads do not touch the
ntuple at all (they are functions of `TreeState` producing values, as
their types show), so no view read can change it either. -/
theorem c8_entry_count_fixed : ∀ (d : TreeData) (n : HGCalNtuple) (i : Nat),
    HGCalNtuple.nevents (HGCalNtuple.init d) = d.nentries
    ∧ HGCalNtuple.nevents (HGCalNtuple.getEvent n i).fst = HGCalNtuple.nevents n
    ∧ HGCalNtuple.nevents (HGCalNtuple.iter n).fst = HGCalNtuple.nevents n := by
  intro d n i
  refine ⟨rfl, ?_, rfl⟩
  unfold HGCalNtuple.getEvent HGCalNtuple.nevents
  split
  · rfl
  · rfl

/-! ## Claim C9 -/

/-- C9: a successful attribute access hands back a zero-argument
closure, not the raw value: the value is read from the store at the
moment of attribute lookup, and every later invocation of the closure —
whatever entry the tree holds by then — returns that captured value. -/
theorem c9_getattr_returns_capturing_thunk :
    ∀ (s : TreeState) (o : Object) (attr : String) (v : Int),
    Object.getAttrVal s o attr = Except.ok v →
    ∃ f : Unit → Int, Object.getAttr s o attr = Except.ok f
      ∧ ∀ sLater : TreeState, invokeLater f sLater = v := by
  intro s o attr v h
  refine ⟨fun _ => v, ?_, fun _ => rfl⟩
  simp [Object.getAttr, h, Except.map]

/-- C9 witness: the closure obtained for the second rechit's energy at
entry 0 keeps returning 25 when invoked under other tree states,
including the state in which entry 1 has been loaded. -/
theorem c9_witness :
    ∃ f : Unit → Int,
      Object.getAttr sHits { index := 1, pfx := "rechit" } ("energy") = Except.ok f
      ∧ invokeLater f sOne = 25 ∧ invokeLater f sAfterLoad1 = 25 := by
  obtain ⟨f, h1, h2⟩ :=
    c9_getattr_returns_capturing_thunk sHits { index := 1, pfx := "rechit" } ("energy") 25 rfl
  exact ⟨f, h1, h2 sOne, h2 sAfterLoad1⟩

/-! ## Claim C10 -/

/-- C10: only `-1` is the absent-record sentinel: a record view with
index `-2` reports itself valid, and an attribute read on it succeeds by
Python negative indexing, returning the second-to-last element of the
branch's sequence instead of failing with an out-of-range error. -/
theorem c10_negative_index_reads_from_back :
    ∀ (s : TreeState) (o : Object) (attr : String) (l : List Int) (v : Int),
    o.index = -2 →
    readBranch s (o.pfx ++ "_" ++ attr) = some l →
    2 ≤ l.length →
    List.get? l (l.length - 2) = some v →
    Object.isValid o = true ∧ Object.getAttrVal s o attr = Except.ok v := by
  intro s o attr l v hidx hb hlen hget
  have h1 : ¬ (o.index = -1) := by rw [hidx]; decide
  have hp : pyGet l o.index = some v := by
    rw [hidx]
    have h3 : ((-2 : Int)) = -((2 : Nat) : Int) := by decide
    rw [h3, pyGet_neg l 2 (by decide) hlen, hget]
  constructor
  · unfold Object.isValid
    rw [hidx]
    decide
  · simp [Object.getAttrVal, h1, hb, hp]

/-- C10 witness: the record view with index `-2` over the two-element
energy vector `[15, 25]` is valid and reads 15, the second-to-last
element. -/
theorem c10_witness :
    Object.isValid { index := -2, pfx := "rechit" } = true
    ∧ Object.getAttrVal sHits { index := -2, pfx := "rechit" } ("energy") = Except.ok 15 :=
  c10_negative_index_reads_from_back sHits { index := -2, pfx := "rechit" } ("energy")
    [15, 25] 15 rfl rfl (by decide) rfl
